import Mathlib

/-!
Shallow embedding of the photondb storage core (sequential semantics).

The embedding follows `src/page_store/write_buffer.rs`,
`src/page_store/version.rs` and `src/engine/src/pagetable.rs`:

* machine integers are `Nat` (u32/u64 bounds appear as explicit hypotheses
  or `% 2 ^ 32` / `% 2 ^ 64` where the code truncates);
* panics (`panic!`, `assert!`, `expect`, `todo!`, checked arithmetic) are
  an explicit `panic`/`none` outcome;
* the single-word CAS loops are rendered sequentially (the CAS succeeds on
  the first attempt), which is the linearized behaviour the claims are
  about;
* the byte arena of a `WriteBuffer` is modelled as a partial map from
  record offset to the record stored there; a payload byte region is
  identified by its `(start offset, length)` pair within the arena.
-/

namespace PhotonDB

/-- `core::mem::size_of::<usize>()` on the 64-bit targets the code assumes. -/
def WORD : Nat := 8

/-- `core::mem::size_of::<RecordHeader>()`: `u64 + u32 + u32`. -/
def headerSize : Nat := 16

/-- `next_multiple_of_u32` from write_buffer.rs. -/
def next_multiple_of_u32 (val multiple : Nat) : Nat :=
  ((val + multiple - 1) / multiple) * multiple

/-- `record_size` from write_buffer.rs: header plus word-aligned payload. -/
def record_size (x : Nat) : Nat :=
  headerSize + next_multiple_of_u32 x WORD

/-- `RecordFlags::EMPTY`. -/
def FLAG_EMPTY : Nat := 0
/-- `RecordFlags::NORMAL_PAGE`. -/
def FLAG_NORMAL_PAGE : Nat := 1
/-- `RecordFlags::DELETED_PAGES`. -/
def FLAG_DELETED_PAGES : Nat := 2
/-- `RecordFlags::TOMBSTONE`. -/
def FLAG_TOMBSTONE : Nat := 128
/-- The union of all defined flag bits, used by `from_bits_truncate`. -/
def FLAG_ALL : Nat := 131

/-- The unpacked `BufferState` of write_buffer.rs. -/
structure BufferState where
  sealed : Bool
  num_writer : Nat
  allocated : Nat
deriving DecidableEq

/-- `BufferState::default()`. -/
def BufferState.init : BufferState :=
  { sealed := false, num_writer := 0, allocated := 0 }

/-- `BufferState::load` on a 64-bit word. -/
def BufferState.load (val : Nat) : BufferState :=
  { sealed := val / 2 ^ 63 % 2 = 1
    num_writer := val / 2 ^ 32 % 2 ^ 31
    allocated := val % 2 ^ 32 }

/-- `BufferState::apply`: packs the state into the 64-bit word; `none`
models the `assert!(self.num_writer < (1 << 31))` panic. -/
def BufferState.applyWord (s : BufferState) : Option Nat :=
  if s.num_writer < 2 ^ 31 then
    some ((if s.sealed then 2 ^ 63 else 0) ||| (s.num_writer <<< 32) ||| s.allocated)
  else
    none

/-- `BufferState::has_writer`. -/
def BufferState.has_writer (s : BufferState) : Bool :=
  s.num_writer > 0

/-- `BufferState::is_flushable`. -/
def BufferState.is_flushable (s : BufferState) : Bool :=
  s.sealed && !s.has_writer

/-- `BufferState::set_sealed`. -/
def BufferState.set_sealed (s : BufferState) : BufferState :=
  { s with sealed := true }

/-- `BufferState::inc_writer`: `checked_add` on the u32 writer counter;
`none` models the `expect` panic on overflow. -/
def BufferState.inc_writer (s : BufferState) : Option BufferState :=
  if s.num_writer + 1 < 2 ^ 32 then
    some { s with num_writer := s.num_writer + 1 }
  else
    none

/-- `BufferState::dec_writer`: `checked_sub` on the u32 writer counter;
`none` models the `expect` panic on underflow. -/
def BufferState.dec_writer (s : BufferState) : Option BufferState :=
  if s.num_writer = 0 then
    none
  else
    some { s with num_writer := s.num_writer - 1 }

/-- Result of `BufferState::alloc_size`.  The source's out-of-space branch
is `todo!("out of range")`, which panics; the `panic` constructor records
exactly that behaviour. -/
inductive SizeResult where
  | ok (offset : Nat) (s : BufferState)
  | panic
deriving DecidableEq

/-- `BufferState::alloc_size` from write_buffer.rs lines 543-554:
round the request up to a word multiple, panic (`todo!`) when it does not
fit, otherwise hand out the old `allocated` as the offset. -/
def BufferState.alloc_size (s : BufferState) (required buf_size : Nat) : SizeResult :=
  let required := next_multiple_of_u32 required WORD
  if s.allocated + required > buf_size then
    SizeResult.panic
  else
    SizeResult.ok s.allocated { s with allocated := s.allocated + required }

/-- One record stored in the arena: the `RecordHeader` fields plus, for
DELETED_PAGES records, the `u64` body written right after the header. -/
structure StoredRecord where
  page_id : Nat
  flags : Nat
  page_size : Nat
  body : List Nat
deriving DecidableEq

/-- `RecordHeader::set_tombstone`: the flags are overwritten (not or-ed)
with `TOMBSTONE`. -/
def StoredRecord.set_tombstone (r : StoredRecord) : StoredRecord :=
  { r with flags := FLAG_TOMBSTONE }

/-- A `RecordRef`: a page payload region `(start offset, length)` in the
arena, or the deleted-pages body. -/
inductive RecordRef where
  | page (start len : Nat)
  | deletedPages (body : List Nat)
deriving DecidableEq

/-- `RecordHeader::record_ref` for the record stored at header offset
`off`: truncate the flags to the defined bits, return a page region or the
deleted-pages body; the outer `Except.error` models the
`assert_eq!(size * 8, page_size)` panic for DELETED_PAGES records. -/
def recordRef (off : Nat) (r : StoredRecord) : Except Unit (Option RecordRef) :=
  let f := r.flags &&& FLAG_ALL
  if f = FLAG_NORMAL_PAGE then
    Except.ok (some (RecordRef.page (off + headerSize) r.page_size))
  else if f = FLAG_DELETED_PAGES then
    if r.page_size / WORD * WORD = r.page_size then
      Except.ok (some (RecordRef.deletedPages r.body))
    else
      Except.error ()
  else
    Except.ok none

/-- The `WriteBuffer` of write_buffer.rs: file id, arena capacity, the
(unpacked) atomic state word, and the arena contents as a map from record
offset to the record written there. -/
structure WriteBuffer where
  file_id : Nat
  buf_size : Nat
  state : BufferState
  mem : Nat → Option StoredRecord

/-- Outcome of a `WriteBuffer` operation: `Ok`, `Err(Error::Again)`, or a
panic.  Each constructor carries the buffer as left behind by the
operation (a panic unwinds before the CAS, leaving the state word as it
was). -/
inductive WBRes (α : Type) where
  | ok (a : α) (wb : WriteBuffer)
  | again (wb : WriteBuffer)
  | panic (wb : WriteBuffer)

/-- The observable tag of a `WBRes`, without the buffer. -/
inductive Outcome (α : Type) where
  | ok (a : α)
  | again
  | panic
deriving DecidableEq

/-- Project the observable tag of a `WBRes`. -/
def WBRes.outcome {α : Type} : WBRes α → Outcome α
  | WBRes.ok a _ => Outcome.ok a
  | WBRes.again _ => Outcome.again
  | WBRes.panic _ => Outcome.panic

/-- Project the buffer carried by a `WBRes.ok`. -/
def WBRes.okBuffer {α : Type} : WBRes α → Option WriteBuffer
  | WBRes.ok _ wb => some wb
  | _ => none

/-- `ReleaseState` from write_buffer.rs. -/
inductive ReleaseState where
  | none
  | flush
deriving DecidableEq

/-- `WriteBuffer::with_capacity`: `none` models the panics for a capacity
that is too small or not a power of two. -/
def WriteBuffer.with_capacity (file_id size : Nat) : Option WriteBuffer :=
  if size ≤ WORD then
    none
  else if size = 0 ∨ size &&& (size - 1) ≠ 0 then
    none
  else
    some { file_id := file_id, buf_size := size, state := BufferState.init,
           mem := fun _ => none }

/-- Write a record header (plus body) at `offset`; `none` models the two
panics of `record_uninit` (misaligned offset, or
`offset + size_of::<RecordHeader>() >= buf_size`). -/
def WriteBuffer.writeRecord (wb : WriteBuffer) (offset : Nat) (r : StoredRecord) :
    Option WriteBuffer :=
  if offset % WORD ≠ 0 then
    none
  else if ¬ offset + headerSize < wb.buf_size then
    none
  else
    some { wb with mem := fun x => if x = offset then some r else wb.mem x }

/-- `WriteBuffer::new_page_at`: writes a NORMAL_PAGE header at `offset`
and returns the page address `(file_id << 32) | (offset + 16)`, the header
offset (standing for the `&mut RecordHeader`), and the `PageBuf` payload
region `(offset + 16, page_size)`. -/
def WriteBuffer.new_page_at (wb : WriteBuffer) (offset page_id page_size : Nat) :
    Option (Nat × Nat × (Nat × Nat) × WriteBuffer) :=
  (wb.writeRecord offset
      { page_id := page_id, flags := FLAG_NORMAL_PAGE, page_size := page_size,
        body := [] }).map
    fun wb' =>
      (wb.file_id * 2 ^ 32 + (offset + headerSize), offset,
        (offset + headerSize, page_size), wb')

/-- `WriteBuffer::new_deleted_pages_record_at`: writes a DELETED_PAGES
header with the `u64` body at `offset`; returns the header offset. -/
def WriteBuffer.new_deleted_pages_record_at (wb : WriteBuffer) (offset : Nat)
    (deleted_pages : List Nat) : Option (Nat × WriteBuffer) :=
  (wb.writeRecord offset
      { page_id := 0, flags := FLAG_DELETED_PAGES,
        page_size := deleted_pages.length * WORD, body := deleted_pages }).map
    fun wb' => (offset, wb')

/-- `WriteBuffer::alloc_size` (the CAS loop, sequential): fail with
`Again` when sealed, optionally enter a writer, then allocate via
`BufferState::alloc_size` and publish by CAS (`apply` asserts the writer
bound). -/
def WriteBuffer.alloc_size (wb : WriteBuffer) (need : Nat) (acquire_writer : Bool) :
    WBRes Nat :=
  if wb.state.sealed then
    WBRes.again wb
  else
    match (if acquire_writer then wb.state.inc_writer else some wb.state) with
    | none => WBRes.panic wb
    | some s1 =>
      match s1.alloc_size need wb.buf_size with
      | SizeResult.panic => WBRes.panic wb
      | SizeResult.ok offset s2 =>
        match s2.applyWord with
        | none => WBRes.panic wb
        | some _ => WBRes.ok offset { wb with state := s2 }

/-- `WriteBuffer::alloc_page`. -/
def WriteBuffer.alloc_page (wb : WriteBuffer) (page_id page_size : Nat)
    (acquire_writer : Bool) : WBRes (Nat × Nat × (Nat × Nat)) :=
  match wb.alloc_size (record_size page_size) acquire_writer with
  | WBRes.again wb => WBRes.again wb
  | WBRes.panic wb => WBRes.panic wb
  | WBRes.ok offset wb' =>
    match wb'.new_page_at offset page_id page_size with
    | none => WBRes.panic wb'
    | some (addr, hoff, region, wb'') => WBRes.ok (addr, hoff, region) wb''

/-- `WriteBuffer::save_deleted_pages`. -/
def WriteBuffer.save_deleted_pages (wb : WriteBuffer) (page_addrs : List Nat)
    (acquire_writer : Bool) : WBRes Nat :=
  match wb.alloc_size (record_size (page_addrs.length * WORD)) acquire_writer with
  | WBRes.again wb => WBRes.again wb
  | WBRes.panic wb => WBRes.panic wb
  | WBRes.ok offset wb' =>
    match wb'.new_deleted_pages_record_at offset page_addrs with
    | none => WBRes.panic wb'
    | some (hoff, wb'') => WBRes.ok hoff wb''

/-- The record-placing loop of `WriteBuffer::batch`: place each new page
at the running offset, advancing by `record_size`.  Returns the list of
`(page_addr, header offset, payload region)` triples, the final offset and
the final buffer. -/
def WriteBuffer.placePages (wb : WriteBuffer) (offset : Nat) :
    List (Nat × Nat) → Option (List (Nat × Nat × (Nat × Nat)) × Nat × WriteBuffer)
  | [] => some ([], offset, wb)
  | (page_id, page_size) :: rest =>
    (wb.new_page_at offset page_id page_size).bind
      fun (addr, hoff, region, wb') =>
        (wb'.placePages (offset + record_size page_size) rest).map
          fun (items, offset', wb'') => ((addr, hoff, region) :: items, offset', wb'')

/-- `WriteBuffer::batch`: one writer slot, one contiguous allocation, the
new pages in order, then (if nonempty) one DELETED_PAGES record. -/
def WriteBuffer.batch (wb : WriteBuffer) (new_page_list : List (Nat × Nat))
    (deleted_pages : List Nat) :
    WBRes (List (Nat × Nat × (Nat × Nat)) × Option Nat) :=
  match wb.alloc_size
      ((new_page_list.map fun p => record_size p.2).sum +
        record_size (deleted_pages.length * WORD)) true with
  | WBRes.again wb => WBRes.again wb
  | WBRes.panic wb => WBRes.panic wb
  | WBRes.ok offset wb1 =>
    match wb1.placePages offset new_page_list with
    | none => WBRes.panic wb1
    | some (items, offset', wb2) =>
      if deleted_pages.isEmpty then
        WBRes.ok (items, none) wb2
      else
        match wb2.new_deleted_pages_record_at offset' deleted_pages with
        | none => WBRes.panic wb2
        | some (hoff, wb3) => WBRes.ok (items, some hoff) wb3

/-- Tombstone the record whose header lives at `hoff` (the caller holds
the `&mut RecordHeader` returned by an allocator). -/
def WriteBuffer.set_tombstone (wb : WriteBuffer) (hoff : Nat) : Option WriteBuffer :=
  match wb.mem hoff with
  | none => none
  | some r =>
    some { wb with
            mem := fun x => if x = hoff then some r.set_tombstone else wb.mem x }

/-- `WriteBuffer::release_writer` (sequential CAS): decrement the writer
count (panic on underflow), publish, and report `Flush` iff the new state
is flushable. -/
def WriteBuffer.release_writer (wb : WriteBuffer) : WBRes ReleaseState :=
  match wb.state.dec_writer with
  | none => WBRes.panic wb
  | some s2 =>
    match s2.applyWord with
    | none => WBRes.panic wb
    | some _ =>
      WBRes.ok (if s2.is_flushable then ReleaseState.flush else ReleaseState.none)
        { wb with state := s2 }

/-- `WriteBuffer::seal` (sequential CAS).  On an already-sealed buffer:
delegate to `release_writer` when `release_writer` is set, otherwise
`Err(Error::Again)`.  Otherwise set the sealed bit (optionally
decrementing), publish, and report `Flush` iff no writer remains. -/
def WriteBuffer.seal (wb : WriteBuffer) (release_writer : Bool) : WBRes ReleaseState :=
  if wb.state.sealed then
    if release_writer then wb.release_writer else WBRes.again wb
  else
    let s1 := wb.state.set_sealed
    match (if release_writer then s1.dec_writer else some s1) with
    | none => WBRes.panic wb
    | some s2 =>
      match s2.applyWord with
      | none => WBRes.panic wb
      | some _ =>
        WBRes.ok (if s2.has_writer then ReleaseState.none else ReleaseState.flush)
          { wb with state := s2 }

/-- The loop of `RecordIterator::next`, with fuel: walk from the given
offset to `allocated`, reading each header, skipping records without a
`record_ref` (EMPTY, TOMBSTONE), and emitting
`((file_id << 32) | record_offset, record)` for the rest.  `none` models a
read of uninitialized memory or a `record_ref` panic. -/
def WriteBuffer.iterLoop (wb : WriteBuffer) (allocated : Nat) :
    Nat → Nat → Option (List (Nat × StoredRecord))
  | 0, _ => none
  | fuel + 1, offset =>
    if offset ≥ allocated then
      some []
    else
      match wb.mem offset with
      | none => none
      | some h =>
        match wb.iterLoop allocated fuel (offset + record_size h.page_size) with
        | none => none
        | some rest =>
          match recordRef offset h with
          | Except.error _ => none
          | Except.ok none => some rest
          | Except.ok (some _) =>
            some ((wb.file_id * 2 ^ 32 + offset, h) :: rest)

/-- A full `iter()` pass: `RecordIterator::next` asserts the buffer is
flushable, then walks from offset 0. -/
def WriteBuffer.iter (wb : WriteBuffer) : Option (List (Nat × StoredRecord)) :=
  if wb.state.is_flushable then
    wb.iterLoop wb.state.allocated (wb.state.allocated + 1) 0
  else
    none

/-- `WriteBuffer::page` on a 64-bit address: decode `(file_id, offset)`,
panic (`none`) on a foreign file id, a misaligned offset, an offset inside
the header area, or a record that is not a valid NORMAL_PAGE; otherwise
return the payload region. -/
def WriteBuffer.page (wb : WriteBuffer) (page_addr : Nat) : Option (Nat × Nat) :=
  let file_id := page_addr / 2 ^ 32
  let offset := page_addr % 2 ^ 32
  if file_id ≠ wb.file_id then
    none
  else if offset % WORD ≠ 0 then
    none
  else if offset < headerSize then
    none
  else
    let hoff := offset - headerSize
    if hoff % WORD ≠ 0 then
      none
    else if ¬ hoff + headerSize < wb.buf_size then
      none
    else
      match wb.mem hoff with
      | none => none
      | some r =>
        match recordRef hoff r with
        | Except.ok (some (RecordRef.page start len)) => some (start, len)
        | _ => none

/-! ### PageTable (pagetable.rs) -/

/-- `FANOUT` from pagetable.rs. -/
def FANOUT : Nat := 2 ^ 16
/-- `L0_MAX = FANOUT`. -/
def L0_MAX : Nat := FANOUT
/-- `L1_MAX = L0_MAX * FANOUT`. -/
def L1_MAX : Nat := L0_MAX * FANOUT
/-- `L2_MAX = L1_MAX * FANOUT`. -/
def L2_MAX : Nat := L1_MAX * FANOUT

/-- The slot named by `Inner::index`: an L0 slot, an L1 child slot
`(child, slot)`, or an L2 child slot `(child, grandchild, slot)`. -/
inductive SlotAddr where
  | l0 (j : Nat)
  | l1 (i j : Nat)
  | l2 (i j k : Nat)
deriving DecidableEq

/-- `Inner::index` composed with the per-level `Index` impls (the
`define_level!` macro): ids below `L0_MAX` index L0 directly; ids in
`[L0_MAX, L1_MAX)` index L1 with fanout `L0_MAX`; ids in
`[L1_MAX, L2_MAX)` index L2 with fanout `L1_MAX`, then the L1 child with
fanout `L0_MAX`.  `none` models the `unreachable!()` branch. -/
def Inner.indexAddr (id : Nat) : Option SlotAddr :=
  if id < L0_MAX then
    some (SlotAddr.l0 id)
  else if id < L1_MAX then
    let r := id - L0_MAX
    some (SlotAddr.l1 (r / L0_MAX) (r % L0_MAX))
  else if id < L2_MAX then
    let r := id - L1_MAX
    some (SlotAddr.l2 (r / L1_MAX) (r % L1_MAX / L0_MAX) (r % L1_MAX % L0_MAX))
  else
    none

/-- The `Inner` of pagetable.rs: the radix slots (zero-initialized, with
lazily installed children made transparent) plus the two allocator
cursors. -/
structure PageTable where
  slots : SlotAddr → Nat
  next : Nat
  free : Nat

/-- `Inner::new`: zeroed slots, `next = 0`, `free = L2_MAX` (sentinel). -/
def PageTable.new : PageTable :=
  { slots := fun _ => 0, next := 0, free := L2_MAX }

/-- `PageTable::get`. -/
def PageTable.get (t : PageTable) (id : Nat) : Option Nat :=
  (Inner.indexAddr id).map t.slots

/-- `PageTable::set`. -/
def PageTable.set (t : PageTable) (id val : Nat) : Option PageTable :=
  (Inner.indexAddr id).map fun a =>
    { t with slots := fun x => if x = a then val else t.slots x }

/-- `Inner::alloc` (sequential: each CAS succeeds first try).  Pop the
free-list head if the sentinel is absent, else take `next` via
`fetch_add`; return `none` for an id only when the table is exhausted.
The outer `Option` models the `unreachable!()` in `Inner::index`. -/
def PageTable.allocStep (t : PageTable) : Option (Option Nat × PageTable) :=
  if t.free ≠ L2_MAX then
    (Inner.indexAddr t.free).map fun a =>
      let id := t.free
      ((if id < L2_MAX then some id else none), { t with free := t.slots a })
  else if t.next < L2_MAX then
    some (some t.next, { t with next := t.next + 1 })
  else
    some (none, t)

/-- `Inner::dealloc` (sequential): store the old free head into the id's
slot and make the id the new head. -/
def PageTable.deallocStep (t : PageTable) (id : Nat) : Option PageTable :=
  (Inner.indexAddr id).map fun a =>
    { t with slots := fun x => if x = a then t.free else t.slots x, free := id }

/-! ### BufferSet (version.rs)

For `BufferSet::{new, install, on_flushed}` only each buffer's `file_id`
is ever consulted, so a `WriteBuffer` handle is modelled by its file id. -/

/-- `BufferSetVersion` from version.rs: the half-open live range, the
sealed buffers oldest first, and the current buffer, each buffer stood for
by its file id. -/
structure BufferSetVersion where
  range_start : Nat
  range_end : Nat
  sealed_buffers : List Nat
  current_buffer : Nat
deriving DecidableEq

/-- `BufferSetVersion::snapshot`: sealed buffers plus the current one. -/
def BufferSetVersion.snapshot (v : BufferSetVersion) : List Nat :=
  v.sealed_buffers ++ [v.current_buffer]

/-- `BufferSet::new`: one empty buffer at file id 0, range `[0, 1)`. -/
def BufferSet.new : BufferSetVersion :=
  { range_start := 0, range_end := 1, sealed_buffers := [], current_buffer := 0 }

/-- `BufferSet::install`: panic (`none`) unless the new buffer's file id
is exactly `buffers_range.end`; otherwise seal the snapshot and widen the
range end by one. -/
def BufferSet.install (v : BufferSetVersion) (new_file_id : Nat) :
    Option BufferSetVersion :=
  if new_file_id ≠ v.range_end then
    none
  else
    some { range_start := v.range_start, range_end := v.range_end + 1,
           sealed_buffers := v.snapshot, current_buffer := new_file_id }

/-- `BufferSet::on_flushed` from version.rs lines 289-309, faithfully:
assert `file_id = buffers_range.start`, then `Vec::pop` the **last**
sealed buffer, assert its file id equals `file_id`, and narrow the range
start.  `none` models the `assert_eq!`/`expect` panics. -/
def BufferSet.on_flushed (v : BufferSetVersion) (file_id : Nat) :
    Option BufferSetVersion :=
  if v.range_start ≠ file_id then
    none
  else
    match v.sealed_buffers.getLast? with
    | none => none
    | some b =>
      if b ≠ file_id then
        none
      else
        some { range_start := file_id + 1, range_end := v.range_end,
               sealed_buffers := v.sealed_buffers.dropLast,
               current_buffer := v.current_buffer }

/-- The versions a `BufferSet` can publish: the construction's first
version, plus anything reached by non-panicking `install` and
`on_flushed` calls. -/
inductive BufferSetReachable : BufferSetVersion → Prop where
  | new : BufferSetReachable BufferSet.new
  | install {v v' : BufferSetVersion} {f : Nat} (h : BufferSetReachable v)
      (hstep : BufferSet.install v f = some v') : BufferSetReachable v'
  | flushed {v v' : BufferSetVersion} {f : Nat} (h : BufferSetReachable v)
      (hstep : BufferSet.on_flushed v f = some v') : BufferSetReachable v'

/-- The invariant of reachable `BufferSetVersion`s, phrased through
`List.range'`. -/
def BufferSetVersion.Inv (v : BufferSetVersion) : Prop :=
  v.range_start < v.range_end ∧
  v.sealed_buffers = List.range' v.range_start (v.range_end - v.range_start - 1) ∧
  v.current_buffer = v.range_end - 1

/-! ### Concrete scenarios -/

/-- A fresh capacity-1024 buffer with file id 1, as built by
`WriteBuffer::with_capacity(1, 1024)`. -/
def wb1024 : WriteBuffer :=
  { file_id := 1, buf_size := 1024, state := BufferState.init, mem := fun _ => none }

/-- A fresh capacity-512 buffer with file id 1, as built by
`WriteBuffer::with_capacity(1, 512)`. -/
def wb512 : WriteBuffer :=
  { file_id := 1, buf_size := 512, state := BufferState.init, mem := fun _ => none }

/-- Scenario for C4: capacity-1024 buffer, `batch(&[], &[1])` (acquires a
writer), then `seal(false)`; yields the sealed buffer that still has one
writer in flight. -/
def c4_sealedWithWriter : Option WriteBuffer := do
  let wb ← WriteBuffer.with_capacity 1 1024
  match wb.batch [] [1] with
  | WBRes.ok _ wb1 =>
    match wb1.seal false with
    | WBRes.ok _ wb2 => some wb2
    | _ => none
  | _ => none

/-- Scenario for C4 (S5): fresh capacity-512 buffer, `seal(false)` twice;
yields the first seal's release state and the second seal's outcome. -/
def c4_fresh_run : Option (ReleaseState × Outcome ReleaseState) := do
  let wb ← WriteBuffer.with_capacity 1 512
  match wb.seal false with
  | WBRes.ok r wb1 => some (r, (wb1.seal false).outcome)
  | _ => none

/-- Scenario S3 for C5: the full write-buffer roundtrip of the claim;
yields the outcome of the final `seal(true)` together with the records
emitted by `iter()`. -/
def c5_run : Option (Outcome ReleaseState × Option (List (Nat × StoredRecord))) := do
  let wb ← WriteBuffer.with_capacity 1 1024
  match wb.batch [(1, 2), (3, 4), (5, 6), (7, 8), (9, 10)] [11, 12, 13, 14, 15] with
  | WBRes.ok _ wb1 =>
    match wb1.release_writer with
    | WBRes.ok _ wb2 =>
      match wb2.batch [(16, 17)] [1, 2] with
      | WBRes.ok (records, deleted_header) wb3 => do
        let wb4 ← records.foldlM (fun w item => w.set_tombstone item.2.1) wb3
        let wb5 ← match deleted_header with
          | some hoff => wb4.set_tombstone hoff
          | none => some wb4
        match wb5.seal true with
        | WBRes.ok r wb6 => some (Outcome.ok r, wb6.iter)
        | _ => none
      | _ => none
    | _ => none
  | _ => none

/-- The record list S3 must see: the five NORMAL_PAGE records with ids
1, 3, 5, 7, 9 and one DELETED_PAGES record with body `[11, ..., 15]`, in
install order, at the addresses the iterator computes. -/
def c5_expected : List (Nat × StoredRecord) :=
  [(2 ^ 32 + 0, { page_id := 1, flags := 1, page_size := 2, body := [] }),
   (2 ^ 32 + 24, { page_id := 3, flags := 1, page_size := 4, body := [] }),
   (2 ^ 32 + 48, { page_id := 5, flags := 1, page_size := 6, body := [] }),
   (2 ^ 32 + 72, { page_id := 7, flags := 1, page_size := 8, body := [] }),
   (2 ^ 32 + 96, { page_id := 9, flags := 1, page_size := 10, body := [] }),
   (2 ^ 32 + 128,
     { page_id := 0, flags := 2, page_size := 40, body := [11, 12, 13, 14, 15] })]

/-- Scenario for C3: capacity-512 buffer, `alloc_page(1, 8, true)`, then
`seal(true)`, then `iter()`; yields the address the allocator returned,
the addresses the iterator emitted, and what `page()` makes of the
iterator's address. -/
def c3_run : Option (Nat × List Nat × Option (Nat × Nat)) := do
  let wb ← WriteBuffer.with_capacity 1 512
  match wb.alloc_page 1 8 true with
  | WBRes.ok (addr, _, _) wb1 =>
    match wb1.seal true with
    | WBRes.ok _ wb2 => do
      let items ← wb2.iter
      match items.map Prod.fst with
      | [a] => some (addr, [a], wb2.page a)
      | _ => none
    | _ => none
  | _ => none

/-- Scenario S1 for C7: alloc, alloc, dealloc(0), dealloc(1), alloc,
alloc on a fresh table; yields the four allocation results. -/
def c7_run : Option (List (Option Nat)) := do
  let t0 := PageTable.new
  let (r1, t1) ← t0.allocStep
  let (r2, t2) ← t1.allocStep
  let t3 ← t2.deallocStep 0
  let t4 ← t3.deallocStep 1
  let (r5, t5) ← t4.allocStep
  let (r6, _) ← t5.allocStep
  pure [r1, r2, r5, r6]

/-- The boundary ids of scenario S2 (fanout `F = 2 ^ 16`):
`{0, F - 1, F, F ^ 2 - 1, F ^ 2, F ^ 3 - 1}`. -/
def c8_ids : List Nat := [0, L0_MAX - 1, L0_MAX, L1_MAX - 1, L1_MAX, L2_MAX - 1]

/-- Scenario S2 for C8: `set(i, i); get(i)` on a fresh table, for each
boundary id. -/
def c8_run : List (Option Nat) :=
  c8_ids.map fun i => (PageTable.new.set i i).bind fun t => t.get i

/-- A sealed, quiescent capacity-512 buffer with file id 1 (what `wb512`
becomes after `seal(false)`), used to witness claims about sealed
buffers. -/
def wbSealed : WriteBuffer :=
  { file_id := 1, buf_size := 512,
    state := { sealed := true, num_writer := 0, allocated := 0 },
    mem := fun _ => none }

/-- The `BufferSetVersion` reached by installing buffers 1 and 2 on a
fresh `BufferSet`: range `[0, 3)`, sealed buffers 0 and 1 (oldest first),
current buffer 2. -/
def c1_v2 : BufferSetVersion :=
  { range_start := 0, range_end := 3, sealed_buffers := [0, 1], current_buffer := 2 }

/-- `wb512` after `alloc_page(1, 8, true)`: one NORMAL_PAGE record at
offset 0, 24 bytes allocated, one writer. -/
def c6_wb1 : WriteBuffer :=
  { file_id := 1, buf_size := 512,
    state := { sealed := false, num_writer := 1, allocated := 24 },
    mem := fun x =>
      if x = 0 then some { page_id := 1, flags := 1, page_size := 8, body := [] }
      else none }

/-- Like `c6_wb1` but with the record at offset 0 tombstoned. -/
def c6_wb2 : WriteBuffer :=
  { file_id := 1, buf_size := 512,
    state := { sealed := false, num_writer := 1, allocated := 24 },
    mem := fun x =>
      if x = 0 then some { page_id := 1, flags := 128, page_size := 8, body := [] }
      else none }

/-- `wb512` after `batch(&[(1, 8)], &[])`: one NORMAL_PAGE record at
offset 0, 40 bytes allocated (the batch always reserves room for the
deleted-pages record, even when it stays empty), one writer. -/
def c6_wbB : WriteBuffer :=
  { file_id := 1, buf_size := 512,
    state := { sealed := false, num_writer := 1, allocated := 40 },
    mem := fun x =>
      if x = 0 then some { page_id := 1, flags := 1, page_size := 8, body := [] }
      else none }

/-! ### Helper lemmas -/

theorem record_size_mod8 (x : Nat) : record_size x % 8 = 0 := by
  unfold record_size next_multiple_of_u32 headerSize WORD
  omega

theorem record_size_ge16 (x : Nat) : 16 ≤ record_size x := by
  unfold record_size next_multiple_of_u32 headerSize WORD
  omega

theorem writeRecord_some {wb : WriteBuffer} {off : Nat} {r : StoredRecord}
    {wb' : WriteBuffer} (h : wb.writeRecord off r = some wb') :
    off % 8 = 0 ∧ off + 16 < wb.buf_size ∧
    wb'.file_id = wb.file_id ∧ wb'.buf_size = wb.buf_size ∧ wb'.state = wb.state ∧
    wb'.mem off = some r ∧ ∀ x, x ≠ off → wb'.mem x = wb.mem x := by
  unfold WriteBuffer.writeRecord at h
  simp only [WORD, headerSize] at h
  split at h
  · exact absurd h (by simp)
  · split at h
    · exact absurd h (by simp)
    · injection h with h
      subst h
      refine ⟨by omega, by omega, rfl, rfl, rfl, by simp, ?_⟩
      intro x hx
      simp [hx]

theorem inc_writer_some {s s' : BufferState} (h : s.inc_writer = some s') :
    s'.sealed = s.sealed ∧ s'.allocated = s.allocated := by
  unfold BufferState.inc_writer at h
  split at h
  · injection h with h
    subst h
    exact ⟨rfl, rfl⟩
  · exact absurd h (by simp)

theorem state_alloc_size_ok {s : BufferState} {required buf_size off : Nat}
    {s' : BufferState} (h : s.alloc_size required buf_size = SizeResult.ok off s') :
    off = s.allocated ∧
    s'.allocated = s.allocated + next_multiple_of_u32 required 8 ∧
    s.allocated + next_multiple_of_u32 required 8 ≤ buf_size ∧
    s'.sealed = s.sealed := by
  unfold BufferState.alloc_size at h
  simp only [WORD] at h
  split at h
  · exact absurd h (by simp)
  · injection h with h1 h2
    subst h2
    exact ⟨h1.symm, rfl, by omega, rfl⟩

theorem alloc_size_ok {wb : WriteBuffer} {need : Nat} {aw : Bool} {off : Nat}
    {wb' : WriteBuffer} (h : wb.alloc_size need aw = WBRes.ok off wb') :
    wb.state.sealed = false ∧
    off = wb.state.allocated ∧
    wb.state.allocated + next_multiple_of_u32 need 8 ≤ wb.buf_size ∧
    wb'.file_id = wb.file_id ∧ wb'.buf_size = wb.buf_size ∧ wb'.mem = wb.mem ∧
    wb'.state.allocated = wb.state.allocated + next_multiple_of_u32 need 8 := by
  unfold WriteBuffer.alloc_size at h
  split at h
  · exact absurd h (by simp)
  · rename_i hsealed
    split at h
    · exact absurd h (by simp)
    · rename_i s1 hs1
      split at h
      · exact absurd h (by simp)
      · rename_i off0 s2 hs2
        split at h
        · exact absurd h (by simp)
        · injection h with h1 h2
          subst h2
          obtain ⟨hoff, halloc, hle, _⟩ := state_alloc_size_ok hs2
          have hs1facts : s1.sealed = wb.state.sealed ∧ s1.allocated = wb.state.allocated := by
            cases aw with
            | false =>
              simp only [Bool.false_eq_true, if_neg] at hs1
              injection hs1 with hs1
              subst hs1
              exact ⟨rfl, rfl⟩
            | true =>
              simp only [if_pos] at hs1
              obtain ⟨a, b⟩ := inc_writer_some hs1
              exact ⟨a, b⟩
          obtain ⟨hs1sealed, hs1alloc⟩ := hs1facts
          refine ⟨by simpa using hsealed, by omega, by omega, rfl, rfl, rfl, ?_⟩
          show s2.allocated = wb.state.allocated + next_multiple_of_u32 need 8
          omega

theorem page_of_written {wb : WriteBuffer} {ho pid psz : Nat} {body : List Nat}
    (hmem : wb.mem ho = some { page_id := pid, flags := 1, page_size := psz, body := body })
    (halign : ho % 8 = 0) (hbound : ho + 16 < wb.buf_size)
    (hcap : wb.buf_size ≤ 2 ^ 32) :
    wb.page (wb.file_id * 2 ^ 32 + (ho + 16)) = some (ho + 16, psz) := by
  have hlt : ho + 16 < 2 ^ 32 := by omega
  have hdiv : (wb.file_id * 2 ^ 32 + (ho + 16)) / 2 ^ 32 = wb.file_id := by omega
  have hmod : (wb.file_id * 2 ^ 32 + (ho + 16)) % 2 ^ 32 = ho + 16 := by omega
  unfold WriteBuffer.page
  simp only [WORD, headerSize, hdiv, hmod]
  rw [if_neg (by simp), if_neg (by omega), if_neg (by omega)]
  have hsub : ho + 16 - 16 = ho := by omega
  rw [hsub, if_neg (by omega), if_neg (by omega), hmem]
  unfold recordRef
  simp only [FLAG_ALL, FLAG_NORMAL_PAGE, headerSize]
  norm_num

theorem new_page_at_some {wb : WriteBuffer} {off pid psz addr hoff : Nat}
    {reg : Nat × Nat} {wb' : WriteBuffer}
    (h : wb.new_page_at off pid psz = some (addr, hoff, reg, wb')) :
    addr = wb.file_id * 2 ^ 32 + (off + 16) ∧ hoff = off ∧ reg = (off + 16, psz) ∧
    off % 8 = 0 ∧ off + 16 < wb.buf_size ∧
    wb'.file_id = wb.file_id ∧ wb'.buf_size = wb.buf_size ∧ wb'.state = wb.state ∧
    wb'.mem off = some { page_id := pid, flags := 1, page_size := psz, body := [] } ∧
    ∀ x, x ≠ off → wb'.mem x = wb.mem x := by
  unfold WriteBuffer.new_page_at at h
  rw [Option.map_eq_some'] at h
  obtain ⟨wbW, hW, heq⟩ := h
  simp only [Prod.mk.injEq] at heq
  obtain ⟨ha, hb, hc, hd⟩ := heq
  obtain ⟨w1, w2, w3, w4, w5, w6, w7⟩ := writeRecord_some hW
  subst hd
  simp only [headerSize] at ha hc w6 ⊢
  simp only [FLAG_NORMAL_PAGE] at w6
  exact ⟨ha.symm, hb.symm, hc.symm, w1, w2, w3, w4, w5, w6, w7⟩

theorem placePages_spec {l : List (Nat × Nat)} :
    ∀ {wb : WriteBuffer} {off : Nat} {items : List (Nat × Nat × (Nat × Nat))}
      {off' : Nat} {wb'' : WriteBuffer},
    wb.placePages off l = some (items, off', wb'') →
    wb''.buf_size = wb.buf_size ∧ wb''.file_id = wb.file_id ∧ wb''.state = wb.state ∧
    off ≤ off' ∧
    (∀ x, x < off → wb''.mem x = wb.mem x) ∧
    (∀ a ho reg, (a, ho, reg) ∈ items →
      ho % 8 = 0 ∧ ho + 16 < wb.buf_size ∧ ho < off' ∧
      a = wb.file_id * 2 ^ 32 + (ho + 16) ∧
      ∃ pid psz, reg = (ho + 16, psz) ∧
        wb''.mem ho =
          some { page_id := pid, flags := 1, page_size := psz, body := [] }) := by
  induction l with
  | nil =>
    intro wb off items off' wb'' h
    unfold WriteBuffer.placePages at h
    injection h with h
    simp only [Prod.mk.injEq] at h
    obtain ⟨h1, h2, h3⟩ := h
    subst h1; subst h2; subst h3
    exact ⟨rfl, rfl, rfl, Nat.le_refl _, fun _ _ => rfl, by simp⟩
  | cons hd tl ih =>
    intro wb off items off' wb'' h
    obtain ⟨pid, psz⟩ := hd
    unfold WriteBuffer.placePages at h
    rw [Option.bind_eq_some] at h
    obtain ⟨⟨addr, hoff, reg, wb1⟩, hnew, h⟩ := h
    rw [Option.map_eq_some'] at h
    obtain ⟨⟨items', off2, wb2⟩, hrec, heq⟩ := h
    simp only [Prod.mk.injEq] at heq
    obtain ⟨hitems, hoff', hwb⟩ := heq
    subst hitems; subst hoff'; subst hwb
    obtain ⟨ha, hb, hc, halign, hbound, hf, hs, hst, hm, hpres⟩ := new_page_at_some hnew
    obtain ⟨i1, i2, i3, i4, i5, i6⟩ := ih hrec
    have hoffle : off < off + record_size psz := by
      have := record_size_ge16 psz
      omega
    refine ⟨by rw [i1, hs], by rw [i2, hf], by rw [i3, hst], by omega, ?_, ?_⟩
    · intro x hx
      rw [i5 x (by omega), hpres x (by omega)]
    · intro a ho rg hmem
      rcases List.mem_cons.mp hmem with hhd | htl
      · simp only [Prod.mk.injEq] at hhd
        obtain ⟨e1, e2, e3⟩ := hhd
        subst e1; subst e3
        rw [e2, hb]
        refine ⟨halign, hbound, by omega, ha, pid, psz, hc, ?_⟩
        rw [i5 off (by omega), hm]
      · obtain ⟨j1, j2, j3, j4, j5⟩ := i6 a ho rg htl
        refine ⟨j1, by rw [hs] at j2; exact j2, j3, by rw [hf] at j4; exact j4, ?_⟩
        exact j5

theorem new_deleted_some {wb : WriteBuffer} {off : Nat} {dl : List Nat}
    {hoff : Nat} {wb' : WriteBuffer}
    (h : wb.new_deleted_pages_record_at off dl = some (hoff, wb')) :
    hoff = off ∧ wb'.file_id = wb.file_id ∧ wb'.buf_size = wb.buf_size ∧
    wb'.state = wb.state ∧
    wb'.mem off =
      some { page_id := 0, flags := 2, page_size := dl.length * 8, body := dl } ∧
    ∀ x, x ≠ off → wb'.mem x = wb.mem x := by
  unfold WriteBuffer.new_deleted_pages_record_at at h
  rw [Option.map_eq_some'] at h
  obtain ⟨wbW, hW, heq⟩ := h
  simp only [Prod.mk.injEq] at heq
  obtain ⟨h1, h2⟩ := heq
  subst h2
  obtain ⟨w1, w2, w3, w4, w5, w6, w7⟩ := writeRecord_some hW
  simp only [FLAG_DELETED_PAGES, WORD] at w6
  exact ⟨h1.symm, w3, w4, w5, w6, w7⟩

theorem alloc_page_roundtrip {wb : WriteBuffer} {pid psz : Nat} {aw : Bool}
    {addr hoff : Nat} {reg : Nat × Nat} {wb' : WriteBuffer}
    (hcap : wb.buf_size ≤ 2 ^ 32)
    (h : wb.alloc_page pid psz aw = WBRes.ok (addr, hoff, reg) wb') :
    wb'.page addr = some reg := by
  unfold WriteBuffer.alloc_page at h
  split at h
  · exact absurd h (by simp)
  · exact absurd h (by simp)
  · rename_i off wb1 hAS
    split at h
    · exact absurd h (by simp)
    · rename_i a2 ho2 rg2 wb2 hNP
      injection h with h1 h2
      simp only [Prod.mk.injEq] at h1
      obtain ⟨e1, e2, e3⟩ := h1
      subst e1; subst e2; subst e3; subst h2
      obtain ⟨ha, hb, hc, halign, hbound, hf, hs, hst, hm, hpres⟩ :=
        new_page_at_some hNP
      obtain ⟨k1, k2, k3, k4, k5, k6, k7⟩ := alloc_size_ok hAS
      subst ha; subst hc
      rw [← hf]
      exact page_of_written hm halign (by omega) (by omega)

theorem batch_roundtrip {wb : WriteBuffer} {newl : List (Nat × Nat)} {dl : List Nat}
    {items : List (Nat × Nat × (Nat × Nat))} {dopt : Option Nat} {wbf : WriteBuffer}
    (hcap : wb.buf_size ≤ 2 ^ 32)
    (h : wb.batch newl dl = WBRes.ok (items, dopt) wbf) :
    ∀ a ho reg, (a, ho, reg) ∈ items → wbf.page a = some reg := by
  unfold WriteBuffer.batch at h
  split at h
  · exact absurd h (by simp)
  · exact absurd h (by simp)
  · rename_i off wb1 hAS
    obtain ⟨k1, k2, k3, k4, k5, k6, k7⟩ := alloc_size_ok hAS
    split at h
    · exact absurd h (by simp)
    · rename_i items2 off2 wb2 hPP
      obtain ⟨p1, p2, p3, p4, p5, p6⟩ := placePages_spec hPP
      split at h
      · injection h with h1 h2
        simp only [Prod.mk.injEq] at h1
        obtain ⟨e1, _⟩ := h1
        subst e1; subst h2
        intro a ho reg hmem
        obtain ⟨q1, q2, q3, q4, pid, psz, q5, q6⟩ := p6 a ho reg hmem
        subst q4; subst q5
        rw [← p2]
        exact page_of_written q6 q1 (by omega) (by omega)
      · split at h
        · exact absurd h (by simp)
        · rename_i hoffD wb3 hND
          injection h with h1 h2
          simp only [Prod.mk.injEq] at h1
          obtain ⟨e1, _⟩ := h1
          subst e1; subst h2
          obtain ⟨d1, d2, d3, d4, d5, d6⟩ := new_deleted_some hND
          subst d1
          intro a ho reg hmem
          obtain ⟨q1, q2, q3, q4, pid, psz, q5, q6⟩ := p6 a ho reg hmem
          subst q4; subst q5
          rw [← p2, ← d2]
          have hmem3 : wb3.mem ho =
              some { page_id := pid, flags := 1, page_size := psz, body := [] } := by
            rw [d6 ho (by omega), q6]
          exact page_of_written hmem3 q1 (by omega) (by omega)

theorem page_none_of_foreign {wb : WriteBuffer} {addr : Nat}
    (h : addr / 2 ^ 32 ≠ wb.file_id) : wb.page addr = none := by
  unfold WriteBuffer.page
  rw [if_pos h]

theorem page_none_of_misaligned {wb : WriteBuffer} {addr : Nat}
    (h : addr % 2 ^ 32 % 8 ≠ 0) : wb.page addr = none := by
  unfold WriteBuffer.page
  simp only [WORD, headerSize]
  by_cases hc1 : addr / 2 ^ 32 ≠ wb.file_id
  · rw [if_pos hc1]
  · rw [if_neg hc1, if_pos h]

theorem page_none_of_short {wb : WriteBuffer} {addr : Nat}
    (h : addr % 2 ^ 32 < 16) : wb.page addr = none := by
  unfold WriteBuffer.page
  simp only [WORD, headerSize]
  by_cases hc1 : addr / 2 ^ 32 ≠ wb.file_id
  · rw [if_pos hc1]
  · rw [if_neg hc1]
    by_cases hc2 : addr % 2 ^ 32 % 8 ≠ 0
    · rw [if_pos hc2]
    · rw [if_neg hc2, if_pos h]

theorem recordRef_not_page {off : Nat} {r : StoredRecord}
    (hflag : r.flags &&& 131 ≠ 1) :
    ∀ s l, recordRef off r ≠ Except.ok (some (RecordRef.page s l)) := by
  intro s l hcontra
  unfold recordRef at hcontra
  simp only [FLAG_ALL, FLAG_NORMAL_PAGE, FLAG_DELETED_PAGES, WORD] at hcontra
  rw [if_neg hflag] at hcontra
  by_cases hf2 : r.flags &&& 131 = 2
  · rw [if_pos hf2] at hcontra
    by_cases hsz : r.page_size / 8 * 8 = r.page_size
    · rw [if_pos hsz] at hcontra
      injection hcontra with hcontra
      injection hcontra with hcontra
      exact RecordRef.noConfusion hcontra
    · rw [if_neg hsz] at hcontra
      exact Except.noConfusion hcontra
  · rw [if_neg hf2] at hcontra
    injection hcontra with hcontra
    exact Option.noConfusion hcontra

theorem page_none_of_bad_record {wb : WriteBuffer} {addr : Nat} {r : StoredRecord}
    (h16 : 16 ≤ addr % 2 ^ 32)
    (hmem : wb.mem (addr % 2 ^ 32 - 16) = some r)
    (hflag : r.flags &&& 131 ≠ 1) : wb.page addr = none := by
  unfold WriteBuffer.page
  simp only [WORD, headerSize]
  by_cases hc1 : addr / 2 ^ 32 ≠ wb.file_id
  · rw [if_pos hc1]
  · rw [if_neg hc1]
    by_cases hc2 : addr % 2 ^ 32 % 8 ≠ 0
    · rw [if_pos hc2]
    · rw [if_neg hc2, if_neg (by omega : ¬ addr % 2 ^ 32 < 16)]
      by_cases hc4 : (addr % 2 ^ 32 - 16) % 8 ≠ 0
      · rw [if_pos hc4]
      · rw [if_neg hc4]
        by_cases hc5 : ¬ addr % 2 ^ 32 - 16 + 16 < wb.buf_size
        · rw [if_pos hc5]
        · rw [if_neg hc5, hmem]
          show (match recordRef (addr % 2 ^ 32 - 16) r with
            | Except.ok (some (RecordRef.page start len)) => some (start, len)
            | _ => none) = none
          cases hE : recordRef (addr % 2 ^ 32 - 16) r with
          | error e => rfl
          | ok o =>
            cases o with
            | none => rfl
            | some rr =>
              cases rr with
              | page s l => exact absurd hE (recordRef_not_page hflag s l)
              | deletedPages b => rfl

theorem reachable_inv {v : BufferSetVersion} (h : BufferSetReachable v) : v.Inv := by
  induction h with
  | new => exact ⟨by decide, by decide, by decide⟩
  | install h hstep ih =>
    rename_i vp vtgt f
    obtain ⟨i1, i2, i3⟩ := ih
    unfold BufferSet.install at hstep
    split at hstep
    · exact absurd hstep (by simp)
    · rename_i hf
      have hf' : f = vp.range_end := not_ne_iff.mp hf
      injection hstep with hstep
      subst hstep
      refine ⟨?_, ?_, ?_⟩
      · show vp.range_start < vp.range_end + 1
        omega
      · show vp.snapshot = List.range' vp.range_start (vp.range_end + 1 - vp.range_start - 1)
        have hn : vp.range_end + 1 - vp.range_start - 1 =
            (vp.range_end - vp.range_start - 1) + 1 := by omega
        rw [hn, List.range'_1_concat]
        unfold BufferSetVersion.snapshot
        rw [i2, i3]
        have hc : vp.range_end - 1 =
            vp.range_start + (vp.range_end - vp.range_start - 1) := by omega
        rw [hc]
      · show f = vp.range_end + 1 - 1
        omega
  | flushed h hstep ih =>
    rename_i vp vtgt f
    obtain ⟨i1, i2, i3⟩ := ih
    unfold BufferSet.on_flushed at hstep
    split at hstep
    · exact absurd hstep (by simp)
    · rename_i hf
      have hf' : vp.range_start = f := not_ne_iff.mp hf
      split at hstep
      · exact absurd hstep (by simp)
      · rename_i b hlast
        split at hstep
        · exact absurd hstep (by simp)
        · rename_i hb
          have hb' : b = f := not_ne_iff.mp hb
          injection hstep with hstep
          subst hstep
          rw [i2, List.getLast?_range'] at hlast
          split at hlast
          · exact absurd hlast (by simp)
          · rename_i hm
            injection hlast with hlast
            have hm1 : vp.range_end - vp.range_start - 1 = 1 := by omega
            refine ⟨?_, ?_, ?_⟩
            · show f + 1 < vp.range_end
              omega
            · show vp.sealed_buffers.dropLast =
                List.range' (f + 1) (vp.range_end - (f + 1) - 1)
              rw [i2, hm1]
              have hz : vp.range_end - (f + 1) - 1 = 0 := by omega
              rw [hz]
              simp
            · show vp.current_buffer = vp.range_end - 1
              exact i3

theorem indexAddr_inj {i j : Nat} (hi : i < L2_MAX) (hj : j < L2_MAX)
    (h : Inner.indexAddr i = Inner.indexAddr j) : i = j := by
  unfold Inner.indexAddr at h
  simp only [L0_MAX, L1_MAX, L2_MAX, FANOUT] at h hi hj
  norm_num at h hi hj
  by_cases h1i : i < 65536 <;> by_cases h1j : j < 65536 <;>
    by_cases h2i : i < 4294967296 <;> by_cases h2j : j < 4294967296 <;>
      simp only [h1i, h1j, h2i, h2j, hi, hj, if_pos, if_neg, if_true, if_false,
        not_false_iff] at h <;>
    first
    | omega
    | (simp only [Option.some.injEq, SlotAddr.l0.injEq, SlotAddr.l1.injEq,
        SlotAddr.l2.injEq] at h <;> omega)
    | (exfalso; simp only [Option.some.injEq] at h;
       first
       | exact SlotAddr.noConfusion h
       | omega)

/-! ### Claim theorems -/

set_option maxRecDepth 4000 in
/-- Claim C1 (code bug): `on_flushed(0)` on a version whose range is
`[0, 3)` with sealed buffers `[0, 1]` — reachable by installing buffers 1
and 2 — panics, because the code `Vec::pop`s the newest sealed buffer
(file id 1) and then asserts its file id equals 0; the claim says the
oldest (front) sealed buffer is removed for any number of sealed buffers.
With exactly one sealed buffer the pop happens to hit the front and the
operation succeeds. -/
theorem C1_on_flushed_pops_newest :
    BufferSetReachable c1_v2 ∧ c1_v2.range_start = 0 ∧
    BufferSet.on_flushed c1_v2 0 = none ∧
    BufferSet.on_flushed
        { range_start := 0, range_end := 2, sealed_buffers := [0],
          current_buffer := 1 } 0 =
      some { range_start := 1, range_end := 2, sealed_buffers := [],
             current_buffer := 1 } := by
  refine ⟨?_, rfl, by decide, by decide⟩
  exact
    @BufferSetReachable.install
      { range_start := 0, range_end := 2, sealed_buffers := [0], current_buffer := 1 }
      c1_v2 2
      (@BufferSetReachable.install BufferSet.new
        { range_start := 0, range_end := 2, sealed_buffers := [0], current_buffer := 1 }
        1 BufferSetReachable.new (by decide))
      (by decide)

set_option maxRecDepth 8000 in
/-- Claim C2 (code bug): on a fresh capacity-1024 buffer, an allocation
whose rounded-up size plus the allocated size exceeds the capacity does
not return `Again` — `BufferState::alloc_size` hits `todo!("out of
range")` and panics (leaving the state word untouched), for `alloc_page`,
`save_deleted_pages` and `batch` alike. -/
theorem C2_out_of_space_panics :
    WriteBuffer.with_capacity 1 1024 = some wb1024 ∧
    wb1024.alloc_page 1 2048 false = WBRes.panic wb1024 ∧
    wb1024.save_deleted_pages (List.range 200) false = WBRes.panic wb1024 ∧
    wb1024.batch [(1, 2048)] [] = WBRes.panic wb1024 :=
  ⟨rfl, rfl, rfl, rfl⟩

/-- Claim C3 (code bug): `alloc_page(1, 8, true)` on a fresh capacity-512
buffer returns the payload address `(1 << 32) | 16`, but after sealing,
`iter()` emits the record at address `(1 << 32) | 0` — the header offset,
not the payload offset — and `page()` rejects (panics on) that address. -/
theorem C3_iter_emits_header_offset :
    c3_run = some (2 ^ 32 + 16, [2 ^ 32], none) := rfl

/-- Claim C4, counterexample: a sealed buffer with one writer in flight
(capacity 1024, `batch(&[], &[1])`, `seal(false)`) answers a further
`seal(true)` with `Ok(Flush)`, not `Err(Again)` — refuting "returns Again
for any value of the release_writer argument". -/
theorem C4_counterexample_seal_release :
    c4_sealedWithWriter.map (fun wb => (wb.state.sealed, (wb.seal true).outcome)) =
      some (true, Outcome.ok ReleaseState.flush) := rfl

/-- Claim C4, amended: on an already-sealed buffer, `seal(false)` returns
`Err(Again)` with the state word unchanged, while `seal(true)` instead
behaves exactly like `release_writer()`; and on a fresh buffer
`seal(false); seal(false)` yields `Flush` then `Again`. -/
theorem C4_seal_again_when_sealed :
    (∀ wb : WriteBuffer, wb.state.sealed = true →
      wb.seal false = WBRes.again wb ∧ wb.seal true = wb.release_writer) ∧
    c4_fresh_run = some (ReleaseState.flush, Outcome.again) := by
  refine ⟨fun wb h => ⟨?_, ?_⟩, rfl⟩
  · unfold WriteBuffer.seal
    rw [if_pos h]
    rfl
  · unfold WriteBuffer.seal
    rw [if_pos h]
    rfl

/-- Witness for C4: the sealed quiescent buffer `wbSealed` satisfies the
hypothesis, and both conclusions evaluate. -/
theorem C4_witness :
    wbSealed.seal false = WBRes.again wbSealed ∧
    wbSealed.seal true = wbSealed.release_writer :=
  C4_seal_again_when_sealed.1 wbSealed rfl

/-- Claim C5 (scenario S3): capacity 1024;
`batch(new=[(1,2),(3,4),(5,6),(7,8),(9,10)], deleted=[11..15])`,
`release_writer()`, `batch(new=[(16,17)], deleted=[1,2])` with both
returned headers tombstoned, then `seal(true)`: the seal returns `Flush`
and `iter()` emits exactly the five NORMAL_PAGE records with page ids
1, 3, 5, 7, 9 and one DELETED_PAGES record with body `[11, 12, 13, 14,
15]`, in install order, with no tombstoned or empty records. -/
theorem C5_write_buffer_roundtrip :
    c5_run = some (Outcome.ok ReleaseState.flush, some c5_expected) := rfl

/-- Claim C6: an address returned by `alloc_page` or `batch` for a
NORMAL_PAGE record round-trips through `page()` to exactly the payload
region the allocator handed out, and `page()` panics (`none`) on a foreign
file id, a misaligned offset, an offset inside the header area, or a
record that is not a valid NORMAL_PAGE (e.g. a tombstoned one). -/
theorem C6_page_roundtrip_and_panics :
    (∀ (wb : WriteBuffer) (pid psz : Nat) (aw : Bool) (addr hoff : Nat)
        (reg : Nat × Nat) (wb' : WriteBuffer), wb.buf_size ≤ 2 ^ 32 →
      wb.alloc_page pid psz aw = WBRes.ok (addr, hoff, reg) wb' →
      wb'.page addr = some reg) ∧
    (∀ (wb : WriteBuffer) (newl : List (Nat × Nat)) (dl : List Nat)
        (items : List (Nat × Nat × (Nat × Nat))) (dopt : Option Nat)
        (wbf : WriteBuffer), wb.buf_size ≤ 2 ^ 32 →
      wb.batch newl dl = WBRes.ok (items, dopt) wbf →
      ∀ a ho reg, (a, ho, reg) ∈ items → wbf.page a = some reg) ∧
    (∀ (wb : WriteBuffer) (addr : Nat), addr / 2 ^ 32 ≠ wb.file_id →
      wb.page addr = none) ∧
    (∀ (wb : WriteBuffer) (addr : Nat), addr % 2 ^ 32 % 8 ≠ 0 →
      wb.page addr = none) ∧
    (∀ (wb : WriteBuffer) (addr : Nat), addr % 2 ^ 32 < 16 →
      wb.page addr = none) ∧
    (∀ (wb : WriteBuffer) (addr : Nat) (r : StoredRecord), 16 ≤ addr % 2 ^ 32 →
      wb.mem (addr % 2 ^ 32 - 16) = some r → r.flags &&& 131 ≠ 1 →
      wb.page addr = none) :=
  ⟨fun _ _ _ _ _ _ _ _ hcap h => alloc_page_roundtrip hcap h,
   fun _ _ _ _ _ _ hcap h => batch_roundtrip hcap h,
   fun _ _ h => page_none_of_foreign h,
   fun _ _ h => page_none_of_misaligned h,
   fun _ _ h => page_none_of_short h,
   fun _ _ _ h16 hmem hflag => page_none_of_bad_record h16 hmem hflag⟩

/-- Witness for C6: each conjunct applied at a concrete input. -/
theorem C6_witness :
    c6_wb1.page (2 ^ 32 + 16) = some (16, 8) ∧
    c6_wbB.page (2 ^ 32 + 16) = some (16, 8) ∧
    c6_wb1.page 16 = none ∧
    c6_wb1.page (2 ^ 32 + 20) = none ∧
    c6_wb1.page (2 ^ 32 + 8) = none ∧
    c6_wb2.page (2 ^ 32 + 16) = none :=
  ⟨C6_page_roundtrip_and_panics.1 wb512 1 8 true (2 ^ 32 + 16) 0 (16, 8) c6_wb1
      (by decide) rfl,
   C6_page_roundtrip_and_panics.2.1 wb512 [(1, 8)] []
      [(2 ^ 32 + 16, 0, (16, 8))] none c6_wbB (by decide) (by rfl)
      (2 ^ 32 + 16) 0 (16, 8) (by simp),
   C6_page_roundtrip_and_panics.2.2.1 c6_wb1 16 (by decide),
   C6_page_roundtrip_and_panics.2.2.2.1 c6_wb1 (2 ^ 32 + 20) (by decide),
   C6_page_roundtrip_and_panics.2.2.2.2.1 c6_wb1 (2 ^ 32 + 8) (by decide),
   C6_page_roundtrip_and_panics.2.2.2.2.2 c6_wb2 (2 ^ 32 + 16)
      { page_id := 1, flags := 128, page_size := 8, body := [] }
      (by decide) rfl (by decide)⟩

/-- Claim C7 (scenario S1): on a fresh page table, `alloc; alloc;
dealloc(0); dealloc(1); alloc; alloc` returns ids 0, 1, 1, 0 — fresh ids
in increasing order from 0, freed ids reissued LIFO. -/
theorem C7_allocator_lifo :
    c7_run = some [some 0, some 1, some 1, some 0] := by decide

/-- Claim C8 (scenario S2): for each boundary id `i` in
`{0, F-1, F, F^2-1, F^2, F^3-1}` with `F = 2 ^ 16`, `set(i, i); get(i)`
returns `i`, and the three-level radix indexing assigns distinct ids
distinct slots. -/
theorem C8_radix_boundaries :
    c8_run = c8_ids.map some ∧
    ∀ i j, i < L2_MAX → j < L2_MAX →
      Inner.indexAddr i = Inner.indexAddr j → i = j :=
  ⟨by decide, fun _ _ hi hj h => indexAddr_inj hi hj h⟩

/-- Witness for C8: the injectivity conjunct applied at a concrete id. -/
theorem C8_witness : (65537 : Nat) = 65537 :=
  C8_radix_boundaries.2 65537 65537 (by decide) (by decide) rfl

/-- Claim C9: every `BufferSetVersion` reachable from construction by
`install` and `on_flushed` has `len(sealed_buffers) = (end - start) - 1`,
file ids consecutive from `start` across `sealed_buffers ++
[current_buffer]`, and `current_buffer = end - 1`. -/
theorem C9_version_invariant :
    ∀ v : BufferSetVersion, BufferSetReachable v →
      v.sealed_buffers.length = (v.range_end - v.range_start) - 1 ∧
      v.sealed_buffers ++ [v.current_buffer] =
        List.range' v.range_start (v.range_end - v.range_start) ∧
      v.current_buffer = v.range_end - 1 := by
  intro v h
  obtain ⟨i1, i2, i3⟩ := reachable_inv h
  refine ⟨by rw [i2]; simp, ?_, i3⟩
  rw [i2, i3]
  have hn : v.range_end - v.range_start =
      (v.range_end - v.range_start - 1) + 1 := by omega
  nth_rewrite 2 [hn]
  rw [List.range'_1_concat]
  have hc : v.range_end - 1 =
      v.range_start + (v.range_end - v.range_start - 1) := by omega
  rw [hc]

/-- Witness for C9: the invariant evaluated on the version reached by one
`install`. -/
theorem C9_witness :
    ([0] : List Nat).length = (2 - 0) - 1 ∧
    ([0] : List Nat) ++ [1] = List.range' 0 (2 - 0) ∧
    (1 : Nat) = 2 - 1 :=
  C9_version_invariant
    { range_start := 0, range_end := 2, sealed_buffers := [0], current_buffer := 1 }
    (@BufferSetReachable.install BufferSet.new
      { range_start := 0, range_end := 2, sealed_buffers := [0], current_buffer := 1 }
      1 BufferSetReachable.new (by decide))

/-- Claim C10: on a buffer whose writer count is zero, `release_writer`
panics through the checked subtraction in `dec_writer` (no wraparound),
and so does `seal(true)` on an unsealed such buffer; the panic leaves the
buffer — in particular its 64-bit state word — unmodified. -/
theorem C10_release_underflow_panics :
    ∀ wb : WriteBuffer, wb.state.num_writer = 0 →
      wb.release_writer = WBRes.panic wb ∧
      (wb.state.sealed = false → wb.seal true = WBRes.panic wb) := by
  intro wb h
  have hd : wb.state.dec_writer = none := by
    unfold BufferState.dec_writer
    rw [if_pos h]
  constructor
  · unfold WriteBuffer.release_writer
    rw [hd]
  · intro hs
    unfold WriteBuffer.seal
    rw [if_neg (by simp [hs])]
    have hd1 : wb.state.set_sealed.dec_writer = none := by
      unfold BufferState.set_sealed BufferState.dec_writer
      simp [h]
    simp only [if_pos]
    rw [hd1]

/-- Witness for C10: the fresh buffer `wb512` has no writer; both
operations panic and return the buffer unchanged. -/
theorem C10_witness :
    wb512.release_writer = WBRes.panic wb512 ∧
    wb512.seal true = WBRes.panic wb512 :=
  ⟨(C10_release_underflow_panics wb512 rfl).1,
   (C10_release_underflow_panics wb512 rfl).2 rfl⟩

end PhotonDB
